import Mathlib

/-!
Shallow embedding of the qbtui incremental state-synchronization engine
(src/api.rs, src/app.rs, src/model.rs, src/main.rs).

Rust strings are modelled as Lean `String` values; the byte-wise ordinal
ordering Rust uses for `sort_unstable` coincides with code-point
lexicographic order on valid UTF-8, modelled here by `charsLe` on the
underlying character lists.  `str.to_lowercase()` is modelled by the
per-character `Char.toLower` (the category names compared in the source
are ASCII, where the two coincide).  The `f64` progress field is only
ever copied, never computed with, so it is modelled by `Rat`.
Network calls are modelled by oracle arguments carrying the response the
server would have produced; `Result`-returning Rust functions return
`Except`-style sum types, and a reachable Rust panic (an `unwrap` of
`None`, an `unreachable!`, or an out-of-bounds index) is an explicit
`panics` outcome.
-/

namespace Qbtui

/-- Byte-wise (equivalently code-point-wise) lexicographic `≤` on the
character lists underlying Rust strings. -/
def charsLe : List Char → List Char → Bool
  | [], _ => true
  | _ :: _, [] => false
  | a :: as, b :: bs =>
    if a.toNat < b.toNat then true
    else if b.toNat < a.toNat then false
    else charsLe as bs

theorem charsLe_total (a b : List Char) : charsLe a b = true ∨ charsLe b a = true := by
  induction a generalizing b with
  | nil => left; rfl
  | cons x xs ih =>
    cases b with
    | nil => right; rfl
    | cons y ys =>
      simp only [charsLe]
      rcases Nat.lt_trichotomy x.toNat y.toNat with hlt | heq | hgt
      · left; simp [hlt]
      · have h1 : ¬ x.toNat < y.toNat := by omega
        have h2 : ¬ y.toNat < x.toNat := by omega
        simp only [if_neg h1, if_neg h2]
        exact ih ys
      · have h1 : ¬ x.toNat < y.toNat := by omega
        right; simp [hgt]

theorem charsLe_trans (a b c : List Char) (hab : charsLe a b = true)
    (hbc : charsLe b c = true) : charsLe a c = true := by
  induction a generalizing b c with
  | nil => rfl
  | cons x xs ih =>
    cases b with
    | nil => simp [charsLe] at hab
    | cons y ys =>
      cases c with
      | nil => simp [charsLe] at hbc
      | cons z zs =>
        simp only [charsLe] at hab hbc ⊢
        rcases Nat.lt_trichotomy x.toNat y.toNat with hxy | hxy | hxy
        · rcases Nat.lt_trichotomy y.toNat z.toNat with hyz | hyz | hyz
          · have : x.toNat < z.toNat := by omega
            simp [this]
          · have : x.toNat < z.toNat := by omega
            simp [this]
          · exfalso
            have h1 : ¬ y.toNat < z.toNat := by omega
            simp [if_neg h1, if_pos hyz] at hbc
        · rcases Nat.lt_trichotomy y.toNat z.toNat with hyz | hyz | hyz
          · have : x.toNat < z.toNat := by omega
            simp [this]
          · have h1 : ¬ x.toNat < z.toNat := by omega
            have h2 : ¬ z.toNat < x.toNat := by omega
            simp only [if_neg h1, if_neg h2]
            have hay1 : ¬ x.toNat < y.toNat := by omega
            have hay2 : ¬ y.toNat < x.toNat := by omega
            simp only [if_neg hay1, if_neg hay2] at hab
            have hbz1 : ¬ y.toNat < z.toNat := by omega
            have hbz2 : ¬ z.toNat < y.toNat := by omega
            simp only [if_neg hbz1, if_neg hbz2] at hbc
            exact ih ys zs hab hbc
          · exfalso
            have h1 : ¬ y.toNat < z.toNat := by omega
            simp [if_neg h1, if_pos hyz] at hbc
        · exfalso
          have h1 : ¬ x.toNat < y.toNat := by omega
          simp [if_neg h1, if_pos hxy] at hab

/-- The ordinal `String` order used by `Vec::<String>::sort_unstable()`. -/
abbrev ordinalLe (a b : String) : Prop := charsLe a.data b.data = true

/-- The case-insensitive order used by
`categories.sort_by_key(|a| a.to_lowercase())` in `ApiHandler::reload`. -/
abbrev lowerLe (a b : String) : Prop :=
  charsLe (a.data.map Char.toLower) (b.data.map Char.toLower) = true

instance : IsTrans String ordinalLe := ⟨fun a b c => charsLe_trans a.data b.data c.data⟩

instance : IsTotal String ordinalLe := ⟨fun a b => charsLe_total a.data b.data⟩

instance : IsTrans String lowerLe :=
  ⟨fun a b c => charsLe_trans (a.data.map Char.toLower) (b.data.map Char.toLower)
    (c.data.map Char.toLower)⟩

instance : IsTotal String lowerLe :=
  ⟨fun a b => charsLe_total (a.data.map Char.toLower) (b.data.map Char.toLower)⟩

/-- `Vec::<String>::sort_unstable()` (equal strings are identical, so
instability is unobservable; a stable sort realizes the same function). -/
def sortStrings (cs : List String) : List String := List.insertionSort ordinalLe cs

/-- `categories.sort_by_key(|a| a.to_lowercase())`: a stable sort keyed on
the lowercased string. -/
def sortByLower (cs : List String) : List String := List.insertionSort lowerLe cs

/-! ## Data model (src/model.rs) -/

/-- model.rs `SpeedLimitsMode`. -/
inductive SpeedLimitsMode where
  | Global
  | Alternative
deriving DecidableEq

/-- model.rs `ConnectionStatus`. -/
inductive ConnectionStatus where
  | Connected
  | Firewalled
  | Disconnected
deriving DecidableEq

/-- model.rs `TorrentInfoState`. -/
inductive TorrentInfoState where
  | Unknown
  | ForcedDl
  | Downloading
  | ForcedMetaDL
  | MetaDl
  | StalledDl
  | ForcedUp
  | Uploading
  | StalledUp
  | CheckingResumeData
  | QueuedDl
  | QueuedUp
  | CheckingUp
  | CheckingDl
  | PausedDl
  | PausedUp
  | Moving
  | MissingFiles
  | Error
  | Allocating
deriving DecidableEq

/-- model.rs `TorrentInfo` (a full Job record). -/
structure TorrentInfo where
  added_on : Int
  amount_left : Int
  category : String
  completed : Int
  completion_on : Int
  content_path : String
  dlspeed : Int
  downloaded : Int
  eta : Int
  hash : String
  magnet_uri : String
  name : String
  num_complete : Nat
  num_incomplete : Nat
  num_leechs : Nat
  num_seeds : Nat
  progress : Rat
  save_path : String
  size : Int
  state : TorrentInfoState
  upspeed : Int
deriving DecidableEq

/-- model.rs `TorrentInfoSync` (a JobDelta: every attribute optional). -/
structure TorrentInfoSync where
  added_on : Option Int
  amount_left : Option Int
  category : Option String
  completed : Option Int
  completion_on : Option Int
  content_path : Option String
  downloaded : Option Int
  eta : Option Int
  name : Option String
  progress : Option Rat
  save_path : Option String
  state : Option TorrentInfoState
  size : Option Int
  dlspeed : Option Int
  upspeed : Option Int
deriving DecidableEq

/-- model.rs `TransferInfo`. -/
structure TransferInfo where
  dl_info_speed : Int
  dl_info_data : Int
  up_info_speed : Int
  up_info_data : Int
  dl_rate_limit : Int
  up_rate_limit : Int
  dht_nodes : Int
  connection_status : ConnectionStatus
  use_alt_speed_limits : Bool
deriving DecidableEq

/-- `TransferInfo::default()` (serde defaults: zeroes, `Disconnected`, `false`). -/
def TransferInfo.default : TransferInfo :=
  { dl_info_speed := 0, dl_info_data := 0, up_info_speed := 0, up_info_data := 0
    dl_rate_limit := 0, up_rate_limit := 0, dht_nodes := 0
    connection_status := ConnectionStatus.Disconnected, use_alt_speed_limits := false }

/-- model.rs `TransferInfoSync` (server-state delta). -/
structure TransferInfoSync where
  dl_info_speed : Option Int
  dl_info_data : Option Int
  up_info_speed : Option Int
  up_info_data : Option Int
  dl_rate_limit : Option Int
  up_rate_limit : Option Int
  dht_nodes : Option Int
  connection_status : Option ConnectionStatus
  use_alt_speed_limits : Option Bool
deriving DecidableEq

/-- model.rs `Category`. -/
structure Category where
  name : String
  save_path : String
deriving DecidableEq

/-- model.rs `TorrentFile`. -/
structure TorrentFile where
  index : Int
  name : String
deriving DecidableEq

/-- model.rs `MainData` — the `/sync/maindata` response.  The two
`HashMap` fields are modelled as association lists in the (arbitrary)
iteration order the Rust `HashMap` would produce. -/
structure MainData where
  rid : Int
  full_update : Option Bool
  torrents : Option (List (String × TorrentInfoSync))
  torrents_removed : Option (List String)
  categories : Option (List (String × Category))
  categories_removed : Option (List String)
  server_state : Option TransferInfoSync
deriving DecidableEq

/-! ## Shared snapshot (src/app.rs `App`) -/

/-- app.rs `Route`. -/
inductive Route where
  | Torrents
  | Sort
  | Categories
  | Search
  | Help
  | Info
  | Files
  | Dialog
deriving DecidableEq

/-- app.rs `SelectedCategory`. -/
inductive SelectedCategory where
  | All
  | Uncategorized
  | Category (i : Nat)
deriving DecidableEq

/-- app.rs `Notification`. -/
inductive Notification where
  | FileNotFound
deriving DecidableEq

/-- api.rs `ApiEvent` — the intents the dispatcher processes. -/
inductive ApiEvent where
  | Reload
  | Sync
  | Files (hash : String)
  | Delete (hash : String)
  | DeleteFiles (hash : String)
  | Pause (hash : String)
  | Resume (hash : String)
deriving DecidableEq

/-- ui.rs `UiEvent`. -/
inductive UiEvent where
  | Tick
  | Redraw
deriving DecidableEq

/-- app.rs `App`, restricted to the fields the synchronization core reads
or writes.  The two `ListState`/`TableState` widget selections are
modelled by their `selected()` value. -/
structure App where
  is_connected : Bool
  is_running : Bool
  forced_shutdown_reason : Option String
  error_reconnection_attempt_n : Nat
  notification : Option Notification
  torrents : List TorrentInfo
  current_torrent : Option TorrentInfo
  transfer_info : TransferInfo
  categories : List String
  current_route : Route
  selected_category : SelectedCategory
  categories_list_selected : Option Nat
  torrents_table_selected : Option Nat
  current_torrent_files : Option (List TorrentFile)
  files_list_selected : Option Nat
  trace_send_sync_event_n : Nat
  trace_handle_sync_event_n : Nat
deriving DecidableEq

/-- `App::new` (the sync-relevant initial values; `host`, channels and the
path-rewrite table are transport or rendering concerns). -/
def App.new : App :=
  { is_connected := true
    is_running := true
    forced_shutdown_reason := none
    error_reconnection_attempt_n := 0
    notification := none
    torrents := []
    current_torrent := none
    transfer_info := TransferInfo.default
    categories := []
    current_route := Route.Torrents
    selected_category := SelectedCategory.All
    categories_list_selected := some 0
    torrents_table_selected := none
    current_torrent_files := none
    files_list_selected := none
    trace_send_sync_event_n := 0
    trace_handle_sync_event_n := 0 }

/-- `App::choose_selected_category` (app.rs lines 363-372). -/
def App.choose_selected_category (app : App) : App :=
  match app.categories_list_selected with
  | none => app
  | some i =>
    { app with
      selected_category :=
        if i = 0 then SelectedCategory.All
        else if i = 1 then SelectedCategory.Uncategorized
        else SelectedCategory.Category i
      torrents_table_selected := none }

/-! ## Errors (src/api.rs) -/

/-- api.rs `LoginError`. -/
inductive LoginError where
  | WrongCredentials
  | TooManyAttempts
deriving DecidableEq

/-- api.rs `ExternalError` (the `reqwest::Error` payload is transport
detail and is dropped). -/
inductive ExternalError where
  | Connection
  | Internal
deriving DecidableEq

/-- api.rs `ApiError`. -/
inductive ApiError where
  | External (e : ExternalError)
  | NotAuthenticated
  | Login (e : LoginError)
deriving DecidableEq

/-! ## Sync engine (src/api.rs `ApiHandler`) -/

/-- api.rs `Api`, restricted to the stored credentials (the HTTP client
and base URL are transport detail). -/
structure Api where
  username : Option String
  password : Option String
deriving DecidableEq

/-- api.rs `ApiHandler`: the delta cursor `rid`, the last dispatched
intent, the credentials, and the shared snapshot it mutates under lock. -/
structure ApiHandler where
  api : Api
  rid : Int
  current_event : ApiEvent
  app : App
deriving DecidableEq

/-- `ApiHandler::new` (api.rs lines 259-280): cursor starts at 0,
`current_event` starts as `Sync`. -/
def ApiHandler.new (app : App) (username password : Option String) : ApiHandler :=
  { api := { username := username, password := password }
    rid := 0
    current_event := ApiEvent.Sync
    app := app }

/-- The payloads of the four parallel fetches of `ApiHandler::reload`
(`transfer_info`, `torrents_info`, `categories`,
`transfer_speed_limits_mode`), as the server answered them.  The
`categories` map is carried in its arbitrary `HashMap` iteration order. -/
structure ReloadData where
  transfer_info : TransferInfo
  torrents_info : List TorrentInfo
  categories : List (String × Category)
  transfer_speed_limits_mode : SpeedLimitsMode
deriving DecidableEq

/-- The snapshot mutation performed by `ApiHandler::reload` on success
(api.rs lines 401-410): replace jobs, stats (with the alternative-limit
flag folded in) and the case-insensitively sorted category names, all
under one lock acquisition. -/
def reloadApply (app : App) (rd : ReloadData) : App :=
  { app with
    torrents := rd.torrents_info
    transfer_info :=
      { rd.transfer_info with
        use_alt_speed_limits :=
          decide (rd.transfer_speed_limits_mode = SpeedLimitsMode.Alternative) }
    categories := sortByLower (rd.categories.map Prod.fst) }

/-- `ApiHandler::reload` (api.rs lines 394-414): `rd` is the joined
outcome of the four fetches (`try_join!` fails if any of them fails). -/
def ApiHandler.reload (h : ApiHandler) (rd : Except ApiError ReloadData) :
    Except ApiError ApiHandler :=
  match rd with
  | Except.error e => Except.error e
  | Except.ok d => Except.ok { h with app := reloadApply h.app d }

/-- The per-field `replace_if_some!` merge of a `TorrentInfoSync` delta
into an existing `TorrentInfo` (api.rs lines 442-464). -/
def mergeTorrent (t : TorrentInfo) (info : TorrentInfoSync) : TorrentInfo :=
  { t with
    added_on := info.added_on.getD t.added_on
    amount_left := info.amount_left.getD t.amount_left
    category := info.category.getD t.category
    completed := info.completed.getD t.completed
    completion_on := info.completion_on.getD t.completion_on
    content_path := info.content_path.getD t.content_path
    downloaded := info.downloaded.getD t.downloaded
    eta := info.eta.getD t.eta
    name := info.name.getD t.name
    progress := info.progress.getD t.progress
    save_path := info.save_path.getD t.save_path
    state := info.state.getD t.state
    size := info.size.getD t.size
    dlspeed := info.dlspeed.getD t.dlspeed
    upspeed := info.upspeed.getD t.upspeed }

/-- The per-field `replace_if_some!` merge of a server-state delta into
`TransferInfo` (api.rs lines 506-521). -/
def mergeTransferInfo (ti : TransferInfo) (ss : TransferInfoSync) : TransferInfo :=
  { ti with
    dl_info_speed := ss.dl_info_speed.getD ti.dl_info_speed
    dl_info_data := ss.dl_info_data.getD ti.dl_info_data
    up_info_speed := ss.up_info_speed.getD ti.up_info_speed
    up_info_data := ss.up_info_data.getD ti.up_info_data
    dl_rate_limit := ss.dl_rate_limit.getD ti.dl_rate_limit
    up_rate_limit := ss.up_rate_limit.getD ti.up_rate_limit
    dht_nodes := ss.dht_nodes.getD ti.dht_nodes
    connection_status := ss.connection_status.getD ti.connection_status
    use_alt_speed_limits := ss.use_alt_speed_limits.getD ti.use_alt_speed_limits }

/-- `iter_mut().find(|item| item.hash == hash)` followed by the in-place
merge: only the first torrent with a matching hash is patched. -/
def updateFirst : List TorrentInfo → String → TorrentInfoSync → List TorrentInfo
  | [], _, _ => []
  | t :: rest, hsh, info =>
    if t.hash = hsh then mergeTorrent t info :: rest
    else t :: updateFirst rest hsh info

/-- The `for (hash, info) in torrents` loop of `ApiHandler::sync`
(api.rs lines 440-470): merge deltas for known hashes in iteration
order; at the first unknown hash set `should_reload` and `break`. -/
def applyTorrents : List TorrentInfo → List (String × TorrentInfoSync) →
    List TorrentInfo × Bool
  | ts, [] => (ts, false)
  | ts, (hsh, info) :: rest =>
    if ts.any (fun t => t.hash = hsh) then applyTorrents (updateFirst ts hsh info) rest
    else (ts, true)

/-- The `torrents_removed` step (api.rs lines 431-435): retain torrents
whose hash is not in the removal list. -/
def torrentsRemovedStep (app : App) (data : MainData) : App :=
  match data.torrents_removed with
  | some removed =>
    { app with torrents := app.torrents.filter (fun t => decide (t.hash ∉ removed)) }
  | none => app

/-- The `categories` (added) step (api.rs lines 473-480): append the new
names and re-sort ordinally. -/
def categoriesAddedStep (app : App) (keys : List String) : App :=
  { app with categories := sortStrings (app.categories ++ keys) }

/-- The `categories_removed` step (api.rs lines 482-497).  `none` is the
Rust panic: indexing `app.categories[i - 2]` with `i < 2` (usize
underflow) or with `i - 2` out of bounds.  Otherwise: resolve the
selected category name, reset the selection to `All` if that name is in
the batch, then retain the survivors and re-sort ordinally. -/
def categoriesRemovedStep (app : App) (removed : List String) : Option App :=
  let selected_name : Option (Option String) :=
    match app.selected_category with
    | SelectedCategory.Category i =>
      if 2 ≤ i then (app.categories.get? (i - 2)).map some else none
    | _ => some none
  match selected_name with
  | none => none
  | some sel =>
    let app :=
      match sel with
      | some nm =>
        if nm ∈ removed then { app with selected_category := SelectedCategory.All }
        else app
      | none => app
    some { app with
      categories := sortStrings (app.categories.filter (fun c => decide (c ∉ removed))) }

/-- The `torrents` (job-delta) loop wrapper (api.rs lines 437-471):
returns the patched job list and the `should_reload` flag. -/
def torrentsUpdateStep (app : App) (data : MainData) : App × Bool :=
  match data.torrents with
  | some updates =>
    let r := applyTorrents app.torrents updates
    ({ app with torrents := r.1 }, r.2)
  | none => (app, false)

/-- The `categories` (added) dispatch (api.rs lines 473-480): the keys of
the added map are appended and the set re-sorted. -/
def categoriesStep (app : App) (data : MainData) : App :=
  match data.categories with
  | some cats => categoriesAddedStep app (cats.map Prod.fst)
  | none => app

/-- The non-full-update delta application of `ApiHandler::sync`
(api.rs lines 431-497): removals, then job-delta merges with the
first-unknown-hash `should_reload` flag, then category additions, then
category removals; `none` propagates the categories-step panic. -/
def syncApplyDeltas (app : App) (data : MainData) : Option (App × Bool) :=
  let app := torrentsRemovedStep app data
  let step := torrentsUpdateStep app data
  let app := categoriesStep step.1 data
  match data.categories_removed with
  | some removed =>
    match categoriesRemovedStep app removed with
    | none => none
    | some app => some (app, step.2)
  | none => some (app, step.2)

/-- The trailing `server_state` merge (api.rs lines 504-522). -/
def serverStateStep (app : App) (data : MainData) : App :=
  match data.server_state with
  | some ss => { app with transfer_info := mergeTransferInfo app.transfer_info ss }
  | none => app

/-- Outcome of one `ApiHandler::sync` call: success, an error returned to
the caller (with the handler state as mutated so far), or a panic. -/
inductive SyncResult where
  | ok (h : ApiHandler)
  | fail (e : ApiError) (h : ApiHandler)
  | panics
deriving DecidableEq

/-- `ApiHandler::sync` (api.rs lines 416-525).  `resp` is the
`/sync/maindata` response, `rd` the payloads a `reload` would fetch.
The cursor `rid` is stored immediately after the response arrives; a
`full_update` response short-circuits to `reload`; otherwise the deltas
are applied and, if an unknown hash was seen, `reload` runs at the end
(after the category steps, before the server-state merge). -/
def ApiHandler.sync (h : ApiHandler) (resp : Except ApiError MainData)
    (rd : Except ApiError ReloadData) : SyncResult :=
  match resp with
  | Except.error e => SyncResult.fail e h
  | Except.ok data =>
    let h1 : ApiHandler := { h with rid := data.rid }
    if data.full_update = some true then
      match h1.reload rd with
      | Except.error e => SyncResult.fail e h1
      | Except.ok h2 => SyncResult.ok h2
    else
      match syncApplyDeltas h1.app data with
      | none => SyncResult.panics
      | some (app2, should_reload) =>
        if should_reload then
          match ApiHandler.reload { h1 with app := app2 } rd with
          | Except.error e => SyncResult.fail e { h1 with app := app2 }
          | Except.ok h2 => SyncResult.ok h2
        else
          SyncResult.ok { h1 with app := serverStateStep app2 data }

/-- Projection used by concrete counterexamples: the cursor stored in a
non-panicking sync outcome. -/
def SyncResult.ridOf : SyncResult → Option Int
  | SyncResult.ok h => some h.rid
  | SyncResult.fail _ h => some h.rid
  | SyncResult.panics => none

/-- Projection used by concrete counterexamples: the category list of a
successful sync outcome. -/
def SyncResult.categoriesOf : SyncResult → Option (List String)
  | SyncResult.ok h => some h.app.categories
  | SyncResult.fail _ _ => none
  | SyncResult.panics => none

/-! ## Session recovery (src/api.rs `Api::login`, `ApiHandler::handle`,
`ApiHandler::handle_error`) -/

/-- What the server answers to `POST /auth/login`: a transport failure,
or a status code with a body. -/
inductive LoginHttp where
  | conn_error
  | status (code : Nat) (body : String)
deriving DecidableEq

/-- Outcome of `Api::login`: success, a returned error, or a panic. -/
inductive LoginOutcome where
  | ok
  | err (e : ApiError)
  | panics
deriving DecidableEq

/-- `Api::login` (api.rs lines 169-191).  The credential `unwrap`s run
first (panic when either is absent).  The generic `post` helper turns a
403 into `NotAuthenticated` before the login-specific status checks, a
200 body is matched against "Ok." and "Fails." (anything else is
`unreachable!`), and any other status is an internal error. -/
def Api.login (api : Api) (http : LoginHttp) : LoginOutcome :=
  match api.username, api.password with
  | some _, some _ =>
    match http with
    | LoginHttp.conn_error => LoginOutcome.err (ApiError.External ExternalError.Connection)
    | LoginHttp.status code body =>
      if code = 403 then LoginOutcome.err ApiError.NotAuthenticated
      else if code = 200 then
        if body = "Ok." then LoginOutcome.ok
        else if body = "Fails." then
          LoginOutcome.err (ApiError.Login LoginError.WrongCredentials)
        else LoginOutcome.panics
      else LoginOutcome.err (ApiError.External ExternalError.Internal)
  | _, _ => LoginOutcome.panics

instance {ε α : Type} [DecidableEq ε] [DecidableEq α] : DecidableEq (Except ε α)
  | Except.ok a, Except.ok b =>
    if h : a = b then isTrue (by rw [h]) else isFalse (by simp [h])
  | Except.ok _, Except.error _ => isFalse (by simp)
  | Except.error _, Except.ok _ => isFalse (by simp)
  | Except.error a, Except.error b =>
    if h : a = b then isTrue (by rw [h]) else isFalse (by simp [h])

/-- The server responses consumed by one `ApiHandler::handle` call, per
kind of request the handled intent issues. -/
structure Oracles where
  sync_resp : Except ApiError MainData
  reload_data : Except ApiError ReloadData
  action_result : Except ApiError Unit
  files_result : Except ApiError (List TorrentFile)
  path_exists : Bool
deriving DecidableEq

/-- Outcome of one `ApiHandler::handle` call: success with the UI events
sent, an error handed back to the dispatcher loop, or a panic. -/
inductive HandleResult where
  | ok (h : ApiHandler) (ui : List UiEvent)
  | fail (e : ApiError) (h : ApiHandler)
  | panics
deriving DecidableEq

/-- The epilogue of a successful `ApiHandler::handle` (api.rs lines
346-353): mark connected, zero the reconnection counter, send the
optional UI event. -/
def handleEpilogue (h : ApiHandler) (ui : Option UiEvent) : HandleResult :=
  HandleResult.ok
    { h with app := { h.app with is_connected := true, error_reconnection_attempt_n := 0 } }
    ui.toList

/-- `ApiHandler::handle` (api.rs lines 282-355).  `current_event` is
recorded before dispatch; each arm issues exactly one call (or the sync
engine) and on success runs the epilogue; an `Err` from any arm returns
early via `?`. -/
def ApiHandler.handle (h0 : ApiHandler) (event : ApiEvent) (o : Oracles) : HandleResult :=
  let h : ApiHandler := { h0 with current_event := event }
  match event with
  | ApiEvent.Reload =>
    match h.reload o.reload_data with
    | Except.error e => HandleResult.fail e h
    | Except.ok h1 => handleEpilogue h1 none
  | ApiEvent.Sync =>
    match h.sync o.sync_resp o.reload_data with
    | SyncResult.panics => HandleResult.panics
    | SyncResult.fail e h1 => HandleResult.fail e h1
    | SyncResult.ok h1 =>
      handleEpilogue
        { h1 with app :=
            { h1.app with trace_handle_sync_event_n := h1.app.trace_handle_sync_event_n + 1 } }
        none
  | ApiEvent.Pause _ =>
    match o.action_result with
    | Except.error e => HandleResult.fail e h
    | Except.ok _ => handleEpilogue h (some UiEvent.Tick)
  | ApiEvent.Resume _ =>
    match o.action_result with
    | Except.error e => HandleResult.fail e h
    | Except.ok _ => handleEpilogue h (some UiEvent.Tick)
  | ApiEvent.Files _ =>
    match o.files_result with
    | Except.error e => HandleResult.fail e h
    | Except.ok files =>
      match h.app.current_torrent with
      | some _ =>
        if files.length = 1 then
          if o.path_exists then handleEpilogue h none
          else
            handleEpilogue
              { h with app := { h.app with notification := some Notification.FileNotFound } }
              none
        else
          handleEpilogue
            { h with app :=
                { h.app with
                  current_torrent_files := some files
                  files_list_selected := some 0
                  current_route := Route.Files } }
            (some UiEvent.Redraw)
      | none => handleEpilogue h none
  | ApiEvent.Delete _ =>
    match o.action_result with
    | Except.error e => HandleResult.fail e h
    | Except.ok _ => handleEpilogue h (some UiEvent.Tick)
  | ApiEvent.DeleteFiles _ =>
    match o.action_result with
    | Except.error e => HandleResult.fail e h
    | Except.ok _ => handleEpilogue h (some UiEvent.Tick)

/-- Outcome of `ApiHandler::handle_error`, instrumented with the list of
intents it re-issued through `handle` (the replay trace). -/
inductive HandleErrorResult where
  | done (h : ApiHandler) (replayed : List ApiEvent)
  | panics
deriving DecidableEq

/-- `ApiHandler::handle_error` (api.rs lines 357-392).  `lo` is the
server response to the reauthentication attempt and `o2` the responses
consumed by the replayed intent.  A transport error marks the app
disconnected; `NotAuthenticated` attempts one relogin and replays
`current_event` exactly once, with the two fatal-shutdown reasons of the
source; the `Login` arm is `unreachable!`. -/
def ApiHandler.handle_error (h : ApiHandler) (e : ApiError) (lo : LoginHttp)
    (o2 : Oracles) : HandleErrorResult :=
  match e with
  | ApiError.External _ =>
    HandleErrorResult.done
      { h with app :=
          { h.app with
            is_connected := false
            error_reconnection_attempt_n := h.app.error_reconnection_attempt_n + 1
            current_route := Route.Torrents } }
      []
  | ApiError.NotAuthenticated =>
    if h.app.is_running = false then HandleErrorResult.done h []
    else
      match h.api.login lo with
      | LoginOutcome.panics => HandleErrorResult.panics
      | LoginOutcome.err _ =>
        HandleErrorResult.done
          { h with app :=
              { h.app with
                is_running := false
                forced_shutdown_reason := some "Could not relogin" } }
          []
      | LoginOutcome.ok =>
        match h.handle h.current_event o2 with
        | HandleResult.panics => HandleErrorResult.panics
        | HandleResult.fail _ h1 =>
          HandleErrorResult.done
            { h1 with app :=
                { h1.app with
                  is_running := false
                  forced_shutdown_reason := some "Not authenticated" } }
            [h.current_event]
        | HandleResult.ok h1 _ => HandleErrorResult.done h1 [h.current_event]
  | ApiError.Login _ => HandleErrorResult.panics

/-! ## Theorems -/

theorem reload_ok (h : ApiHandler) (d : ReloadData) :
    ApiHandler.reload h (Except.ok d) = Except.ok { h with app := reloadApply h.app d } := rfl

/-- C1: for every incremental sync cycle whose delta_sync response is
successfully received, the sync cursor (`rid`) stored afterward equals
the cursor value carried by that response — in the success outcome and
in every error outcome (including the forced-full-reload paths, whose
reload failure still leaves the cursor advanced), so the next cycle does
not replay the same delta. -/
theorem sync_cursor_follows_response (h : ApiHandler) (data : MainData)
    (rd : Except ApiError ReloadData) (h' : ApiHandler)
    (hres : ApiHandler.sync h (Except.ok data) rd = SyncResult.ok h' ∨
      ∃ e, ApiHandler.sync h (Except.ok data) rd = SyncResult.fail e h') :
    h'.rid = data.rid := by
  simp only [ApiHandler.sync] at hres
  by_cases hfu : data.full_update = some true
  · simp only [if_pos hfu] at hres
    cases rd with
    | error e =>
      simp only [ApiHandler.reload] at hres
      rcases hres with hres | ⟨e', hres⟩
      · cases hres
      · cases hres; rfl
    | ok d =>
      simp only [ApiHandler.reload] at hres
      rcases hres with hres | ⟨e', hres⟩
      · cases hres; rfl
      · cases hres
  · simp only [if_neg hfu] at hres
    cases hsad : syncApplyDeltas h.app data with
    | none =>
      rw [show ({ h with rid := data.rid } : ApiHandler).app = h.app from rfl, hsad] at hres
      rcases hres with hres | ⟨e', hres⟩ <;> cases hres
    | some p =>
      rw [show ({ h with rid := data.rid } : ApiHandler).app = h.app from rfl, hsad] at hres
      obtain ⟨app2, sr⟩ := p
      cases sr with
      | false =>
        simp only [Bool.false_eq_true, if_neg] at hres
        rcases hres with hres | ⟨e', hres⟩
        · cases hres; rfl
        · cases hres
      | true =>
        simp only [if_pos] at hres
        cases rd with
        | error e =>
          simp only [ApiHandler.reload] at hres
          rcases hres with hres | ⟨e', hres⟩
          · cases hres
          · cases hres; rfl
        | ok d =>
          simp only [ApiHandler.reload] at hres
          rcases hres with hres | ⟨e', hres⟩
          · cases hres; rfl
          · cases hres

/-- Witness data: a fresh handler over the initial snapshot. -/
def W1h : ApiHandler := ApiHandler.new App.new none none

/-- Witness data: an empty delta response carrying cursor 3. -/
def W1data : MainData :=
  { rid := 3, full_update := none, torrents := none, torrents_removed := none
    categories := none, categories_removed := none, server_state := none }

/-- Witness data: the handler after the empty delta of `W1data`. -/
def W1h2 : ApiHandler := { W1h with rid := 3 }

theorem sync_cursor_follows_response_witness :
    (ApiHandler.sync W1h (Except.ok W1data)
        (Except.error (ApiError.External ExternalError.Connection)) = SyncResult.ok W1h2 ∨
      ∃ e, ApiHandler.sync W1h (Except.ok W1data)
        (Except.error (ApiError.External ExternalError.Connection)) = SyncResult.fail e W1h2) ∧
    W1h2.rid = W1data.rid :=
  ⟨Or.inl (by decide),
    sync_cursor_follows_response W1h W1data
      (Except.error (ApiError.External ExternalError.Connection)) W1h2 (Or.inl (by decide))⟩

/-- Projection used by concrete statements: whether a sync outcome is a
success. -/
def SyncResult.isOk : SyncResult → Bool
  | SyncResult.ok _ => true
  | _ => false

/-- C3 counterexample data: a handler whose next response is a
`full_update` bootstrap carrying cursor 7. -/
def C3h : ApiHandler := ApiHandler.new App.new (some "admin") (some "pw")

/-- C3 counterexample data: the `full_update` response with cursor 7. -/
def C3data : MainData :=
  { rid := 7, full_update := some true, torrents := none, torrents_removed := none
    categories := none, categories_removed := none, server_state := none }

/-- C3 counterexample data: the payloads the triggered reload fetches. -/
def C3rd : ReloadData :=
  { transfer_info := TransferInfo.default, torrents_info := [], categories := []
    transfer_speed_limits_mode := SpeedLimitsMode.Global }

/-- C3 counterexample: a successful `full_reload()` does NOT leave the
cursor at zero.  Processing a `full_update` response with cursor 7
performs the reload successfully, yet the stored cursor afterward is 7,
not 0 — `reload` never touches `rid`. -/
theorem full_reload_cursor_not_zero_counterexample :
    (ApiHandler.sync C3h (Except.ok C3data) (Except.ok C3rd)).isOk = true ∧
    (ApiHandler.sync C3h (Except.ok C3data) (Except.ok C3rd)).ridOf = some 7 ∧
    (7 : Int) ≠ 0 := by
  refine ⟨by decide, by decide, by decide⟩

/-- C3 amended: the cursor is 0 on handler construction, and a
successful `reload` leaves the cursor UNCHANGED (it does not reset it)
while replacing the snapshot job list, stats (with the speed-limit flag
folded in) and case-insensitively sorted category list in one snapshot
mutation, preserving the selection state. -/
theorem reload_replaces_snapshot_keeps_cursor :
    (∀ app u p, (ApiHandler.new app u p).rid = 0) ∧
    (∀ (h : ApiHandler) (d : ReloadData) (h2 : ApiHandler),
      ApiHandler.reload h (Except.ok d) = Except.ok h2 →
      h2.rid = h.rid ∧
      h2.app.torrents = d.torrents_info ∧
      h2.app.transfer_info =
        { d.transfer_info with
          use_alt_speed_limits :=
            decide (d.transfer_speed_limits_mode = SpeedLimitsMode.Alternative) } ∧
      h2.app.categories = sortByLower (d.categories.map Prod.fst) ∧
      h2.app.selected_category = h.app.selected_category) := by
  refine ⟨fun _ _ _ => rfl, fun h d h2 hrel => ?_⟩
  cases hrel
  exact ⟨rfl, rfl, rfl, rfl, rfl⟩

/-- Witness data: the handler produced by a successful reload of `C3h`
from the payloads `C3rd`. -/
def W3h2 : ApiHandler := { C3h with app := reloadApply C3h.app C3rd }

theorem reload_replaces_snapshot_keeps_cursor_witness :
    W3h2.rid = C3h.rid ∧
    W3h2.app.torrents = C3rd.torrents_info ∧
    W3h2.app.transfer_info =
      { C3rd.transfer_info with
        use_alt_speed_limits :=
          decide (C3rd.transfer_speed_limits_mode = SpeedLimitsMode.Alternative) } ∧
    W3h2.app.categories = sortByLower (C3rd.categories.map Prod.fst) ∧
    W3h2.app.selected_category = C3h.app.selected_category :=
  reload_replaces_snapshot_keeps_cursor.2 C3h C3rd W3h2 (by decide)

/-- Strip every delta payload from a response, keeping its cursor and
`full_update` flag. -/
def stripDeltas (data : MainData) : MainData :=
  { data with
    torrents := none, torrents_removed := none, categories := none
    categories_removed := none, server_state := none }

/-- C4: a `full_update = true` response short-circuits: syncing it is
identical to syncing the same response with every delta payload stripped
(so no removals, job deltas, category changes or server-state delta are
merged), and when the reload fetches succeed the outcome is exactly the
full replacement of the snapshot from those fetches. -/
theorem full_update_short_circuits (h : ApiHandler) (data : MainData)
    (rd : Except ApiError ReloadData) (hfu : data.full_update = some true) :
    ApiHandler.sync h (Except.ok data) rd =
      ApiHandler.sync h (Except.ok (stripDeltas data)) rd ∧
    (∀ d, rd = Except.ok d →
      ApiHandler.sync h (Except.ok data) rd =
        SyncResult.ok { h with rid := data.rid, app := reloadApply h.app d }) := by
  have hfu2 : (stripDeltas data).full_update = some true := hfu
  constructor
  · simp only [ApiHandler.sync, if_pos hfu, if_pos hfu2]
    rfl
  · intro d hd
    subst hd
    simp only [ApiHandler.sync, if_pos hfu, ApiHandler.reload]

/-- Witness data: a `full_update` response that also carries deltas that
must all be ignored. -/
def W4data : MainData :=
  { rid := 9, full_update := some true
    torrents := some [("aa", ⟨none, none, none, none, none, none, none, none, none,
      some 1, none, none, none, none, none⟩)]
    torrents_removed := some ["bb"]
    categories := some [("movies", ⟨"movies", "/m"⟩)]
    categories_removed := some ["tv"]
    server_state := some ⟨some 5, none, none, none, none, none, none, none, none⟩ }

theorem full_update_short_circuits_witness :
    ApiHandler.sync C3h (Except.ok W4data) (Except.ok C3rd) =
      ApiHandler.sync C3h (Except.ok (stripDeltas W4data)) (Except.ok C3rd) ∧
    ApiHandler.sync C3h (Except.ok W4data) (Except.ok C3rd) =
      SyncResult.ok { C3h with rid := W4data.rid, app := reloadApply C3h.app C3rd } :=
  ⟨(full_update_short_circuits C3h W4data (Except.ok C3rd) (by decide)).1,
    (full_update_short_circuits C3h W4data (Except.ok C3rd) (by decide)).2 C3rd rfl⟩

/-- A `/sync/maindata` response carrying only a `categories_removed`
batch. -/
def onlyCategoriesRemoved (r : Int) (removed : List String) : MainData :=
  { rid := r, full_update := none, torrents := none, torrents_removed := none
    categories := none, categories_removed := some removed, server_state := none }

theorem sync_only_categories_removed (h : ApiHandler) (removed : List String) (r : Int)
    (rd : Except ApiError ReloadData) :
    ApiHandler.sync h (Except.ok (onlyCategoriesRemoved r removed)) rd =
      (match categoriesRemovedStep h.app removed with
        | none => SyncResult.panics
        | some app2 => SyncResult.ok { h with rid := r, app := app2 }) := by
  simp only [ApiHandler.sync, syncApplyDeltas, torrentsUpdateStep, categoriesStep,
    torrentsRemovedStep, serverStateStep, onlyCategoriesRemoved]
  cases hcr : categoriesRemovedStep h.app removed with
  | none => simp [hcr]
  | some app2 => simp [hcr]

/-- C5: when a `categories_removed` batch is processed during
incremental sync, a selection that names a category present in the batch
resets to show-all, and a batch that does not contain the selected name
leaves the selection unchanged even if unrelated categories are removed;
the incremental sync of a response carrying only that batch is exactly
this step. -/
theorem categories_removed_selection (h : ApiHandler) (removed : List String) (i : Nat)
    (nm : String) (r : Int) (rd : Except ApiError ReloadData)
    (hsel : h.app.selected_category = SelectedCategory.Category i)
    (h2i : 2 ≤ i)
    (hget : h.app.categories.get? (i - 2) = some nm) :
    (nm ∈ removed →
      (categoriesRemovedStep h.app removed).map App.selected_category =
        some SelectedCategory.All) ∧
    (nm ∉ removed →
      (categoriesRemovedStep h.app removed).map App.selected_category =
        some (SelectedCategory.Category i)) ∧
    ApiHandler.sync h (Except.ok (onlyCategoriesRemoved r removed)) rd =
      (match categoriesRemovedStep h.app removed with
        | none => SyncResult.panics
        | some app2 => SyncResult.ok { h with rid := r, app := app2 }) := by
  refine ⟨?_, ?_, sync_only_categories_removed h removed r rd⟩
  · intro hmem
    have hstep : categoriesRemovedStep h.app removed =
        some { h.app with
          selected_category := SelectedCategory.All
          categories :=
            sortStrings (h.app.categories.filter (fun c => decide (c ∉ removed))) } := by
      simp only [categoriesRemovedStep, hsel, if_pos h2i, hget, Option.map, if_pos hmem]
    rw [hstep]
    rfl
  · intro hnm
    have hstep : categoriesRemovedStep h.app removed =
        some { h.app with
          categories :=
            sortStrings (h.app.categories.filter (fun c => decide (c ∉ removed))) } := by
      simp only [categoriesRemovedStep, hsel, if_pos h2i, hget, Option.map, if_neg hnm]
    rw [hstep]
    simpa using hsel

/-- Witness data: snapshot with categories `["movies", "tv"]` and the
list index 3 (= category "tv") selected. -/
def W5h : ApiHandler :=
  { api := { username := none, password := none }
    rid := 0
    current_event := ApiEvent.Sync
    app := { App.new with
      categories := ["movies", "tv"]
      selected_category := SelectedCategory.Category 3 } }

theorem categories_removed_selection_witness :
    (categoriesRemovedStep W5h.app ["tv"]).map App.selected_category =
      some SelectedCategory.All ∧
    ApiHandler.sync W5h (Except.ok (onlyCategoriesRemoved 2 ["tv"]))
        (Except.error (ApiError.External ExternalError.Connection)) =
      (match categoriesRemovedStep W5h.app ["tv"] with
        | none => SyncResult.panics
        | some app2 => SyncResult.ok { W5h with rid := 2, app := app2 }) :=
  ⟨(categories_removed_selection W5h ["tv"] 3 "tv" 2
      (Except.error (ApiError.External ExternalError.Connection))
      (by decide) (by decide) (by decide)).1 (by decide),
    (categories_removed_selection W5h ["tv"] 3 "tv" 2
      (Except.error (ApiError.External ExternalError.Connection))
      (by decide) (by decide) (by decide)).2.2⟩

/-- A JobDelta carrying only a progress value. -/
def progressDelta (p : Rat) : TorrentInfoSync :=
  { added_on := none, amount_left := none, category := none, completed := none
    completion_on := none, content_path := none, downloaded := none, eta := none
    name := none, progress := some p, save_path := none, state := none, size := none
    dlspeed := none, upspeed := none }

theorem mergeTorrent_progressDelta (t : TorrentInfo) (p : Rat) :
    mergeTorrent t (progressDelta p) = { t with progress := p } := rfl

/-- A `/sync/maindata` response carrying only job-update deltas. -/
def onlyTorrents (r : Int) (updates : List (String × TorrentInfoSync)) : MainData :=
  { rid := r, full_update := none, torrents := some updates, torrents_removed := none
    categories := none, categories_removed := none, server_state := none }

theorem updateFirst_append (l1 : List TorrentInfo) (t : TorrentInfo) (l2 : List TorrentInfo)
    (hsh : String) (info : TorrentInfoSync)
    (hne : ∀ u ∈ l1, u.hash ≠ hsh) (ht : t.hash = hsh) :
    updateFirst (l1 ++ t :: l2) hsh info = l1 ++ mergeTorrent t info :: l2 := by
  induction l1 with
  | nil => simp [updateFirst, ht]
  | cons u us ih =>
    simp only [List.cons_append, updateFirst]
    rw [List.append_eq, if_neg (hne u (by simp)), ih (fun v hv => hne v (by simp [hv]))]

/-- C6: merging a JobDelta that carries only `progress = p` into the job
with the matching hash yields that job with `progress := p` and every
other field at its prior value, leaves every other job and snapshot
field unchanged, and advances the cursor to the response value. -/
theorem progress_delta_frame (h : ApiHandler) (l1 : List TorrentInfo) (t : TorrentInfo)
    (l2 : List TorrentInfo) (p : Rat) (r : Int) (rd : Except ApiError ReloadData)
    (hsh : String)
    (htor : h.app.torrents = l1 ++ t :: l2) (ht : t.hash = hsh)
    (hne : ∀ u ∈ l1, u.hash ≠ hsh) :
    ApiHandler.sync h (Except.ok (onlyTorrents r [(hsh, progressDelta p)])) rd =
      SyncResult.ok
        { h with
          rid := r
          app := { h.app with torrents := l1 ++ { t with progress := p } :: l2 } } := by
  have hany : (l1 ++ t :: l2).any (fun x => decide (x.hash = hsh)) = true := by
    rw [List.any_eq_true]
    exact ⟨t, by simp, by simp [ht]⟩
  have hupd : updateFirst (l1 ++ t :: l2) hsh (progressDelta p) =
      l1 ++ { t with progress := p } :: l2 := by
    rw [updateFirst_append l1 t l2 hsh (progressDelta p) hne ht,
      mergeTorrent_progressDelta]
  have happly : applyTorrents h.app.torrents [(hsh, progressDelta p)] =
      (l1 ++ { t with progress := p } :: l2, false) := by
    rw [htor]
    simp only [applyTorrents, hany, if_true]
    rw [hupd]
  simp only [ApiHandler.sync, syncApplyDeltas, torrentsUpdateStep, categoriesStep,
    torrentsRemovedStep, serverStateStep, onlyTorrents, happly]
  rfl

/-- Witness data: a downloading job with hash `"aa"`. -/
def W6t : TorrentInfo :=
  { added_on := 100, amount_left := 500, category := "movies", completed := 500
    completion_on := 0, content_path := "/d/a", dlspeed := 10, downloaded := 500
    eta := 60, hash := "aa", magnet_uri := "m", name := "A", num_complete := 3
    num_incomplete := 4, num_leechs := 1, num_seeds := 2, progress := 1
    save_path := "/d", size := 1000, state := TorrentInfoState.Downloading, upspeed := 0 }

/-- Witness data: a handler whose snapshot holds exactly the job `W6t`. -/
def W6h : ApiHandler :=
  { api := { username := none, password := none }
    rid := 0
    current_event := ApiEvent.Sync
    app := { App.new with torrents := [W6t] } }

theorem progress_delta_frame_witness :
    ApiHandler.sync W6h (Except.ok (onlyTorrents 4 [("aa", progressDelta 35)]))
        (Except.error (ApiError.External ExternalError.Connection)) =
      SyncResult.ok
        { W6h with
          rid := 4
          app := { W6h.app with torrents := [] ++ { W6t with progress := 35 } :: [] } } :=
  progress_delta_frame W6h [] W6t [] 35 4
    (Except.error (ApiError.External ExternalError.Connection)) "aa"
    (by decide) (by decide) (by decide)

/-- Projection used by concrete statements: the job list carried by a
non-panicking sync outcome. -/
def SyncResult.torrentsOf : SyncResult → Option (List TorrentInfo)
  | SyncResult.ok h => some h.app.torrents
  | SyncResult.fail _ h => some h.app.torrents
  | SyncResult.panics => none

/-- Projection used by concrete statements: the error of a failed sync
outcome. -/
def SyncResult.errOf : SyncResult → Option ApiError
  | SyncResult.fail e _ => some e
  | _ => none

theorem mergeTorrent_hash (t : TorrentInfo) (info : TorrentInfoSync) :
    (mergeTorrent t info).hash = t.hash := rfl

theorem updateFirst_hashes (ts : List TorrentInfo) (hsh : String) (info : TorrentInfoSync) :
    (updateFirst ts hsh info).map TorrentInfo.hash = ts.map TorrentInfo.hash := by
  induction ts with
  | nil => rfl
  | cons t rest ih =>
    simp only [updateFirst]
    by_cases h : t.hash = hsh
    · simp [if_pos h, mergeTorrent_hash]
    · simp [if_neg h, ih]

theorem applyTorrents_fst_hashes (updates : List (String × TorrentInfoSync))
    (ts : List TorrentInfo) :
    ((applyTorrents ts updates).1).map TorrentInfo.hash = ts.map TorrentInfo.hash := by
  induction updates generalizing ts with
  | nil => rfl
  | cons u rest ih =>
    obtain ⟨hsh, info⟩ := u
    simp only [applyTorrents]
    by_cases h : ts.any (fun t => decide (t.hash = hsh)) = true
    · rw [if_pos h]
      rw [ih (updateFirst ts hsh info)]
      exact updateFirst_hashes ts hsh info
    · rw [if_neg h]

theorem applyTorrents_true_of_mem (updates : List (String × TorrentInfoSync))
    (ts : List TorrentInfo) (hsh : String) (info : TorrentInfoSync)
    (hmem : (hsh, info) ∈ updates) (hnot : hsh ∉ ts.map TorrentInfo.hash) :
    (applyTorrents ts updates).2 = true := by
  induction updates generalizing ts with
  | nil => cases hmem
  | cons u rest ih =>
    obtain ⟨h1, i1⟩ := u
    simp only [applyTorrents]
    by_cases h : ts.any (fun t => decide (t.hash = h1)) = true
    · rw [if_pos h]
      rcases List.mem_cons.mp hmem with heq | hmem2
      · exfalso
        obtain ⟨t, htmem, hteq⟩ := List.any_eq_true.mp h
        apply hnot
        injection heq with e1 _
        subst e1
        exact List.mem_map.mpr ⟨t, htmem, by simpa using hteq⟩
      · exact ih (updateFirst ts h1 i1) hmem2 (by rwa [updateFirst_hashes])
    · rw [if_neg h]

/-- Everything `categoriesRemovedStep` can do when it does not panic:
the job list is untouched, the selection is either reset to `All` or
unchanged, and the category list is the ordinally re-sorted filter of
the old one. -/
theorem categoriesRemovedStep_spec (app : App) (removed : List String) (app2 : App)
    (hstep : categoriesRemovedStep app removed = some app2) :
    app2.torrents = app.torrents ∧
    (app2.selected_category = SelectedCategory.All ∨
      app2.selected_category = app.selected_category) ∧
    app2.categories =
      sortStrings (app.categories.filter (fun c => decide (c ∉ removed))) := by
  simp only [categoriesRemovedStep] at hstep
  split at hstep
  · cases hstep
  · split at hstep
    · split at hstep
      · cases hstep
        exact ⟨rfl, Or.inl rfl, rfl⟩
      · cases hstep
        exact ⟨rfl, Or.inr rfl, rfl⟩
    · cases hstep
      exact ⟨rfl, Or.inr rfl, rfl⟩

theorem categoriesAddedStep_torrents (app : App) (keys : List String) :
    (categoriesAddedStep app keys).torrents = app.torrents := rfl

/-- C2: an incremental sync response containing a job-update delta whose
hash is absent from the job set (as it stands when updates are
processed, i.e. after the removal step) never creates a job from the
partial record: the cycle performs a full reload instead.  When the
reload fetches succeed the job list is the full fetch; when they fail
the error propagates and the job set gained no hash. -/
theorem unknown_hash_forces_reload (h : ApiHandler) (data : MainData)
    (rd : Except ApiError ReloadData) (updates : List (String × TorrentInfoSync))
    (hsh : String) (info : TorrentInfoSync)
    (hfu : data.full_update ≠ some true)
    (htor : data.torrents = some updates)
    (hmem : (hsh, info) ∈ updates)
    (hnot : hsh ∉ (torrentsRemovedStep h.app data).torrents.map TorrentInfo.hash)
    (hnp : ApiHandler.sync h (Except.ok data) rd ≠ SyncResult.panics) :
    (∀ d, rd = Except.ok d →
      (ApiHandler.sync h (Except.ok data) rd).isOk = true ∧
      (ApiHandler.sync h (Except.ok data) rd).torrentsOf = some d.torrents_info) ∧
    (∀ e, rd = Except.error e →
      (ApiHandler.sync h (Except.ok data) rd).errOf = some e ∧
      ((ApiHandler.sync h (Except.ok data) rd).torrentsOf).map (List.map TorrentInfo.hash) =
        some ((torrentsRemovedStep h.app data).torrents.map TorrentInfo.hash)) := by
  have hfu' : ¬ (data.full_update = some true) := hfu
  rcases hr : applyTorrents (torrentsRemovedStep h.app data).torrents updates with ⟨ts, sr⟩
  have hsr : sr = true := by
    have hx := applyTorrents_true_of_mem updates
      (torrentsRemovedStep h.app data).torrents hsh info hmem hnot
    rwa [hr] at hx
  subst hsr
  have hts : ts.map TorrentInfo.hash =
      (torrentsRemovedStep h.app data).torrents.map TorrentInfo.hash := by
    have hx := applyTorrents_fst_hashes updates (torrentsRemovedStep h.app data).torrents
    rwa [hr] at hx
  obtain ⟨app2, hsad, happ2⟩ :
      ∃ app2, syncApplyDeltas h.app data = some (app2, true) ∧
        app2.torrents.map TorrentInfo.hash =
          (torrentsRemovedStep h.app data).torrents.map TorrentInfo.hash := by
    cases hcr : data.categories_removed with
    | none =>
      cases hc : data.categories with
      | none =>
        refine ⟨{ torrentsRemovedStep h.app data with torrents := ts }, ?_, ?_⟩
        · simp only [syncApplyDeltas, torrentsUpdateStep, categoriesStep, htor, hr, hc, hcr]
        · simpa using hts
      | some cats =>
        refine ⟨categoriesAddedStep { torrentsRemovedStep h.app data with torrents := ts }
          (cats.map Prod.fst), ?_, ?_⟩
        · simp only [syncApplyDeltas, torrentsUpdateStep, categoriesStep, htor, hr, hc, hcr]
        · simpa [categoriesAddedStep] using hts
    | some removed =>
      cases hc : data.categories with
      | none =>
        cases hcrs : categoriesRemovedStep
            { torrentsRemovedStep h.app data with torrents := ts } removed with
        | none =>
          exfalso
          apply hnp
          simp only [ApiHandler.sync, if_neg hfu', syncApplyDeltas, torrentsUpdateStep, categoriesStep, htor, hr, hc, hcr, hcrs]
        | some app2 =>
          refine ⟨app2, ?_, ?_⟩
          · simp only [syncApplyDeltas, torrentsUpdateStep, categoriesStep, htor, hr, hc, hcr, hcrs]
          · rw [(categoriesRemovedStep_spec _ removed app2 hcrs).1]
            simpa using hts
      | some cats =>
        cases hcrs : categoriesRemovedStep
            (categoriesAddedStep { torrentsRemovedStep h.app data with torrents := ts }
              (cats.map Prod.fst)) removed with
        | none =>
          exfalso
          apply hnp
          simp only [ApiHandler.sync, if_neg hfu', syncApplyDeltas, torrentsUpdateStep, categoriesStep, htor, hr, hc, hcr, hcrs]
        | some app2 =>
          refine ⟨app2, ?_, ?_⟩
          · simp only [syncApplyDeltas, torrentsUpdateStep, categoriesStep, htor, hr, hc, hcr, hcrs]
          · rw [(categoriesRemovedStep_spec _ removed app2 hcrs).1,
              categoriesAddedStep_torrents]
            simpa using hts
  refine ⟨?_, ?_⟩
  · intro d hd
    subst hd
    have hrun : ApiHandler.sync h (Except.ok data) (Except.ok d) =
        SyncResult.ok
          { api := h.api, rid := data.rid, current_event := h.current_event
            app := reloadApply app2 d } := by
      simp only [ApiHandler.sync, if_neg hfu', hsad, ApiHandler.reload]
      rfl
    rw [hrun]
    exact ⟨rfl, rfl⟩
  · intro e he
    subst he
    have hrun : ApiHandler.sync h (Except.ok data) (Except.error e) =
        SyncResult.fail e
          { api := h.api, rid := data.rid, current_event := h.current_event, app := app2 } := by
      simp only [ApiHandler.sync, if_neg hfu', hsad, ApiHandler.reload]
      rfl
    rw [hrun]
    refine ⟨rfl, ?_⟩
    simpa [SyncResult.torrentsOf] using happ2

/-- Witness data: an update delta for the unknown hash `"xx"` against an
empty job set. -/
def W2data : MainData := onlyTorrents 5 [("xx", progressDelta 1)]

theorem unknown_hash_forces_reload_witness :
    (ApiHandler.sync W1h (Except.ok W2data) (Except.ok C3rd)).isOk = true ∧
    (ApiHandler.sync W1h (Except.ok W2data) (Except.ok C3rd)).torrentsOf =
      some C3rd.torrents_info :=
  (unknown_hash_forces_reload W1h W2data (Except.ok C3rd) [("xx", progressDelta 1)]
    "xx" (progressDelta 1) (by decide) (by decide) (by decide) (by decide)
    (by decide)).1 C3rd rfl

theorem sync_fail_current_event (h : ApiHandler) (resp : Except ApiError MainData)
    (rd : Except ApiError ReloadData) (e : ApiError) (h1 : ApiHandler)
    (hres : ApiHandler.sync h resp rd = SyncResult.fail e h1) :
    h1.current_event = h.current_event := by
  cases resp with
  | error e2 =>
    simp only [ApiHandler.sync] at hres
    cases hres
    rfl
  | ok data =>
    simp only [ApiHandler.sync] at hres
    by_cases hfu : data.full_update = some true
    · rw [if_pos hfu] at hres
      cases rd with
      | error e3 =>
        simp only [ApiHandler.reload] at hres
        cases hres
        rfl
      | ok d =>
        simp only [ApiHandler.reload] at hres
        cases hres
    · rw [if_neg hfu] at hres
      cases hsad : syncApplyDeltas h.app data with
      | none =>
        rw [show ({ h with rid := data.rid } : ApiHandler).app = h.app from rfl, hsad] at hres
        cases hres
      | some p =>
        rw [show ({ h with rid := data.rid } : ApiHandler).app = h.app from rfl, hsad] at hres
        obtain ⟨app2, sr⟩ := p
        cases sr with
        | false =>
          simp only [Bool.false_eq_true, if_neg] at hres
          cases hres
        | true =>
          simp only [if_pos] at hres
          cases rd with
          | error e3 =>
            simp only [ApiHandler.reload] at hres
            cases hres
            rfl
          | ok d =>
            simp only [ApiHandler.reload] at hres
            cases hres

theorem handle_fail_current_event (h : ApiHandler) (ev : ApiEvent) (o : Oracles)
    (e : ApiError) (h1 : ApiHandler)
    (hres : ApiHandler.handle h ev o = HandleResult.fail e h1) :
    h1.current_event = ev := by
  cases ev with
  | Reload =>
    simp only [ApiHandler.handle, ApiHandler.reload] at hres
    cases hrd : o.reload_data with
    | error e2 =>
      rw [hrd] at hres
      cases hres
      rfl
    | ok d =>
      rw [hrd] at hres
      simp only [handleEpilogue] at hres
      cases hres
  | Sync =>
    simp only [ApiHandler.handle] at hres
    cases hs : ApiHandler.sync { h with current_event := ApiEvent.Sync }
        o.sync_resp o.reload_data with
    | panics =>
      rw [hs] at hres
      cases hres
    | ok h2 =>
      rw [hs] at hres
      simp only [handleEpilogue] at hres
      cases hres
    | fail e2 h2 =>
      rw [hs] at hres
      cases hres
      exact sync_fail_current_event _ _ _ _ _ hs
  | Pause s =>
    simp only [ApiHandler.handle] at hres
    cases ha : o.action_result with
    | error e2 =>
      rw [ha] at hres
      cases hres
      rfl
    | ok u =>
      rw [ha] at hres
      simp only [handleEpilogue] at hres
      cases hres
  | Resume s =>
    simp only [ApiHandler.handle] at hres
    cases ha : o.action_result with
    | error e2 =>
      rw [ha] at hres
      cases hres
      rfl
    | ok u =>
      rw [ha] at hres
      simp only [handleEpilogue] at hres
      cases hres
  | Delete s =>
    simp only [ApiHandler.handle] at hres
    cases ha : o.action_result with
    | error e2 =>
      rw [ha] at hres
      cases hres
      rfl
    | ok u =>
      rw [ha] at hres
      simp only [handleEpilogue] at hres
      cases hres
  | DeleteFiles s =>
    simp only [ApiHandler.handle] at hres
    cases ha : o.action_result with
    | error e2 =>
      rw [ha] at hres
      cases hres
      rfl
    | ok u =>
      rw [ha] at hres
      simp only [handleEpilogue] at hres
      cases hres
  | Files s =>
    simp only [ApiHandler.handle] at hres
    split at hres
    · cases hres
      rfl
    · split at hres
      · split at hres
        · split at hres
          · simp only [handleEpilogue] at hres
            cases hres
          · simp only [handleEpilogue] at hres
            cases hres
        · simp only [handleEpilogue] at hres
          cases hres
      · simp only [handleEpilogue] at hres
        cases hres

/-- C7: when a call fails with the authentication-required outcome and
the single relogin succeeds, the exact intent that failed (recorded in
`current_event` by `handle` before dispatch) is re-issued exactly once;
if that replay fails, the process shuts down fatally with reason
"Not authenticated" and no further replays are issued. -/
theorem reauth_replays_exactly_once (h : ApiHandler) (ev : ApiEvent) (o : Oracles)
    (lo : LoginHttp) (o2 : Oracles) (h1 : ApiHandler)
    (hfail : ApiHandler.handle h ev o = HandleResult.fail ApiError.NotAuthenticated h1)
    (hrun : h1.app.is_running = true)
    (hlogin : Api.login h1.api lo = LoginOutcome.ok) :
    h1.current_event = ev ∧
    (∀ h2 u, ApiHandler.handle h1 ev o2 = HandleResult.ok h2 u →
      ApiHandler.handle_error h1 ApiError.NotAuthenticated lo o2 =
        HandleErrorResult.done h2 [ev]) ∧
    (∀ e2 h2, ApiHandler.handle h1 ev o2 = HandleResult.fail e2 h2 →
      ApiHandler.handle_error h1 ApiError.NotAuthenticated lo o2 =
        HandleErrorResult.done
          { h2 with app :=
              { h2.app with
                is_running := false
                forced_shutdown_reason := some "Not authenticated" } }
          [ev]) := by
  have hce := handle_fail_current_event h ev o ApiError.NotAuthenticated h1 hfail
  have hnotf : ¬ (h1.app.is_running = false) := by simp [hrun]
  refine ⟨hce, ?_, ?_⟩
  · intro h2 u hok
    simp only [ApiHandler.handle_error, if_neg hnotf, hlogin, hce, hok]
  · intro e2 h2 hfail2
    simp only [ApiHandler.handle_error, if_neg hnotf, hlogin, hce, hfail2]

/-- Witness data: a handler holding credentials, about to pause `"aa"`. -/
def W7h : ApiHandler :=
  { api := { username := some "u", password := some "p" }
    rid := 0
    current_event := ApiEvent.Reload
    app := App.new }

/-- Witness data: oracles in which every call is rejected as
unauthenticated. -/
def W7o : Oracles :=
  { sync_resp := Except.error ApiError.NotAuthenticated
    reload_data := Except.error ApiError.NotAuthenticated
    action_result := Except.error ApiError.NotAuthenticated
    files_result := Except.error ApiError.NotAuthenticated
    path_exists := false }

/-- Witness data: oracles in which every call succeeds. -/
def W7o2 : Oracles :=
  { sync_resp := Except.error ApiError.NotAuthenticated
    reload_data := Except.error ApiError.NotAuthenticated
    action_result := Except.ok ()
    files_result := Except.ok []
    path_exists := true }

/-- Witness data: the handler after the failed pause recorded its
intent. -/
def W7h1 : ApiHandler := { W7h with current_event := ApiEvent.Pause "aa" }

theorem reauth_replays_exactly_once_witness :
    ApiHandler.handle_error W7h1 ApiError.NotAuthenticated (LoginHttp.status 200 "Ok.") W7o2 =
      HandleErrorResult.done W7h1 [ApiEvent.Pause "aa"] :=
  (reauth_replays_exactly_once W7h (ApiEvent.Pause "aa") W7o (LoginHttp.status 200 "Ok.")
    W7o2 W7h1 (by decide) (by decide) (by decide)).2.1 W7h1 [UiEvent.Tick] (by decide)

/-- C8: if a request is rejected as unauthenticated while the process
holds no stored credentials, the session-recovery path PANICS (the
`unwrap` of the absent credential in `Api::login`) — it does not reach
any fatal-shutdown assignment, so no reason "not authenticated" is ever
stored.  This contradicts the specified graceful escalation and is a
code bug. -/
theorem missing_credentials_panics (h : ApiHandler) (lo : LoginHttp) (o2 : Oracles)
    (hcred : h.api.username = none ∨ h.api.password = none)
    (hrun : h.app.is_running = true) :
    ApiHandler.handle_error h ApiError.NotAuthenticated lo o2 = HandleErrorResult.panics := by
  have hnotf : ¬ (h.app.is_running = false) := by simp [hrun]
  have hlogin : Api.login h.api lo = LoginOutcome.panics := by
    rcases hcred with hu | hp
    · cases hp2 : h.api.password <;> simp [Api.login, hu, hp2]
    · cases hu2 : h.api.username <;> simp [Api.login, hp, hu2]
  simp only [ApiHandler.handle_error, if_neg hnotf, hlogin]

theorem missing_credentials_panics_witness :
    ApiHandler.handle_error W1h ApiError.NotAuthenticated LoginHttp.conn_error W7o2 =
      HandleErrorResult.panics :=
  missing_credentials_panics W1h LoginHttp.conn_error W7o2 (Or.inl (by decide)) (by decide)

/-- C9 counterexample data: snapshot with category list `["apple"]`. -/
def C9h : ApiHandler :=
  { api := { username := none, password := none }
    rid := 0
    current_event := ApiEvent.Sync
    app := { App.new with categories := ["apple"] } }

/-- C9 counterexample data: an incremental response adding the category
"Zebra". -/
def C9data : MainData :=
  { rid := 1, full_update := none, torrents := none, torrents_removed := none
    categories := some [("Zebra", { name := "Zebra", save_path := "/z" })]
    categories_removed := none, server_state := none }

/-- C9 counterexample: after an incremental category addition the stored
list is `["Zebra", "apple"]` (case-sensitive ordinal order from
`sort_unstable`), which is NOT in case-insensitive sorted order, since
"zebra" comes after "apple". -/
theorem categories_not_caseinsensitive_counterexample :
    (ApiHandler.sync C9h (Except.ok C9data)
        (Except.error (ApiError.External ExternalError.Connection))).categoriesOf =
      some ["Zebra", "apple"] ∧
    ¬ List.Sorted lowerLe ["Zebra", "apple"] := by
  constructor
  · decide
  · decide

/-- C9 amended: a full reload sorts the category list case-insensitively
(stable sort keyed on the lowercased name), while incremental category
additions and removals re-sort it in case-sensitive ordinal order —
which need not coincide with case-insensitive order. -/
theorem categories_sorted_amended :
    (∀ app rd, List.Sorted lowerLe (reloadApply app rd).categories) ∧
    (∀ app keys, List.Sorted ordinalLe (categoriesAddedStep app keys).categories) ∧
    (∀ app removed app2, categoriesRemovedStep app removed = some app2 →
      List.Sorted ordinalLe app2.categories) := by
  refine ⟨fun app rd => ?_, fun app keys => ?_, fun app removed app2 hstep => ?_⟩
  · exact List.sorted_insertionSort lowerLe (rd.categories.map Prod.fst)
  · exact List.sorted_insertionSort ordinalLe (app.categories ++ keys)
  · rw [(categoriesRemovedStep_spec app removed app2 hstep).2.2]
    exact List.sorted_insertionSort ordinalLe _

/-- Witness data: the snapshot left by removing category "tv" from
`W5h`. -/
def W9app2 : App :=
  { W5h.app with
    selected_category := SelectedCategory.All
    categories := sortStrings (W5h.app.categories.filter (fun c => decide (c ∉ ["tv"]))) }

theorem categories_sorted_amended_witness :
    List.Sorted ordinalLe W9app2.categories :=
  categories_sorted_amended.2.2 W5h.app ["tv"] W9app2 (by decide)

/-- C10 invariant: every `Category i` selection has `i ≥ 2` (list
indices 0 and 1 are the reserved `All` and `Uncategorized` rows). -/
def selInv (app : App) : Prop :=
  ∀ i, app.selected_category = SelectedCategory.Category i → 2 ≤ i

theorem selInv_of_selected (app app2 : App)
    (hd : app2.selected_category = SelectedCategory.All ∨
      app2.selected_category = app.selected_category)
    (hinv : selInv app) : selInv app2 := by
  intro i heq
  rcases hd with hd | hd
  · rw [hd] at heq
    cases heq
  · rw [hd] at heq
    exact hinv i heq

theorem torrentsRemovedStep_selected (app : App) (data : MainData) :
    (torrentsRemovedStep app data).selected_category = app.selected_category := by
  cases h : data.torrents_removed <;> simp [torrentsRemovedStep, h]

theorem serverStateStep_selected (app : App) (data : MainData) :
    (serverStateStep app data).selected_category = app.selected_category := by
  cases h : data.server_state <;> simp [serverStateStep, h]

theorem torrentsUpdateStep_selected (app : App) (data : MainData) :
    (torrentsUpdateStep app data).1.selected_category = app.selected_category := by
  cases h : data.torrents <;> simp [torrentsUpdateStep, h]

theorem categoriesStep_selected (app : App) (data : MainData) :
    (categoriesStep app data).selected_category = app.selected_category := by
  cases h : data.categories <;> simp [categoriesStep, h, categoriesAddedStep]

theorem syncApplyDeltas_selected (app : App) (data : MainData) (app2 : App) (sr : Bool)
    (h : syncApplyDeltas app data = some (app2, sr)) :
    app2.selected_category = SelectedCategory.All ∨
      app2.selected_category = app.selected_category := by
  simp only [syncApplyDeltas] at h
  cases hcr : data.categories_removed with
  | none =>
    rw [hcr] at h
    cases h
    right
    rw [categoriesStep_selected, torrentsUpdateStep_selected, torrentsRemovedStep_selected]
  | some removed =>
    simp only [hcr] at h
    cases hstep : categoriesRemovedStep
        (categoriesStep (torrentsUpdateStep (torrentsRemovedStep app data) data).1 data)
        removed with
    | none =>
      rw [hstep] at h
      cases h
    | some a =>
      rw [hstep] at h
      cases h
      rcases (categoriesRemovedStep_spec _ _ _ hstep).2.1 with h1 | h1
      · left
        exact h1
      · right
        rw [h1, categoriesStep_selected, torrentsUpdateStep_selected,
          torrentsRemovedStep_selected]

/-- C10: the selected-category invariant.  `Category i` is only ever
constructed with `i ≥ 2` (list rows 0 and 1 are `All` and
`Uncategorized`): it holds initially, `choose_selected_category`
preserves it, every sync outcome preserves it, and under it the `i - 2`
subtraction used to index the category list during incremental sync and
visible-torrent filtering never underflows (`i - 2 + 2 = i`). -/
theorem selected_category_invariant :
    selInv App.new ∧
    (∀ app, selInv app → selInv (App.choose_selected_category app)) ∧
    (∀ (h : ApiHandler) (data : MainData) (rd : Except ApiError ReloadData)
      (h1 : ApiHandler),
      (ApiHandler.sync h (Except.ok data) rd = SyncResult.ok h1 ∨
        ∃ e, ApiHandler.sync h (Except.ok data) rd = SyncResult.fail e h1) →
      selInv h.app → selInv h1.app) ∧
    (∀ app i, selInv app → app.selected_category = SelectedCategory.Category i →
      i - 2 + 2 = i) := by
  refine ⟨?_, ?_, ?_, ?_⟩
  · intro i heq
    simp [App.new] at heq
  · intro app hinv i heq
    simp only [App.choose_selected_category] at heq
    cases hcls : app.categories_list_selected with
    | none =>
      rw [hcls] at heq
      exact hinv i heq
    | some j =>
      rw [hcls] at heq
      by_cases h0 : j = 0
      · simp [h0] at heq
      · by_cases h1 : j = 1
        · simp [h0, h1] at heq
        · simp only [if_neg h0, if_neg h1] at heq
          cases heq
          omega
  · intro h data rd h1 hres hinv
    simp only [ApiHandler.sync] at hres
    by_cases hfu : data.full_update = some true
    · rw [if_pos hfu] at hres
      cases rd with
      | error e =>
        simp only [ApiHandler.reload] at hres
        rcases hres with hres | ⟨e2, hres⟩
        · cases hres
        · cases hres
          exact hinv
      | ok d =>
        simp only [ApiHandler.reload] at hres
        rcases hres with hres | ⟨e2, hres⟩
        · cases hres
          exact hinv
        · cases hres
    · rw [if_neg hfu] at hres
      cases hsad : syncApplyDeltas h.app data with
      | none =>
        rw [show ({ h with rid := data.rid } : ApiHandler).app = h.app from rfl, hsad] at hres
        rcases hres with hres | ⟨e2, hres⟩ <;> cases hres
      | some p =>
        rw [show ({ h with rid := data.rid } : ApiHandler).app = h.app from rfl, hsad] at hres
        obtain ⟨app2, sr⟩ := p
        have hsel2 := syncApplyDeltas_selected h.app data app2 sr hsad
        cases sr with
        | false =>
          simp only [Bool.false_eq_true, if_neg] at hres
          rcases hres with hres | ⟨e2, hres⟩
          · cases hres
            refine selInv_of_selected h.app _ ?_ hinv
            rw [serverStateStep_selected]
            exact hsel2
          · cases hres
        | true =>
          simp only [if_pos] at hres
          cases rd with
          | error e =>
            simp only [ApiHandler.reload] at hres
            rcases hres with hres | ⟨e2, hres⟩
            · cases hres
            · cases hres
              exact selInv_of_selected h.app app2 hsel2 hinv
          | ok d =>
            simp only [ApiHandler.reload] at hres
            rcases hres with hres | ⟨e2, hres⟩
            · cases hres
              exact selInv_of_selected h.app _ hsel2 hinv
            · cases hres
  · intro app i hinv heq
    have := hinv i heq
    omega

/-- Witness data: a snapshot whose category-list widget has row 4
highlighted. -/
def W10app : App := { App.new with categories_list_selected := some 4 }

theorem selected_category_invariant_witness :
    selInv (App.choose_selected_category W10app) ∧ ((4 : Nat) - 2 + 2 = 4) :=
  ⟨selected_category_invariant.2.1 W10app (fun _ heq => nomatch heq),
    selected_category_invariant.2.2.2 (App.choose_selected_category W10app) 4
      (selected_category_invariant.2.1 W10app (fun _ heq => nomatch heq))
      (by decide)⟩

end Qbtui
